import Mathlib

/-!
# Verification of the zheap undo log engine interface

Shallow embedding of the undo log manager and undo record codec declared in
`src/include/access/undolog.h` and `src/include/access/undorecord.h`.
Machine integers are modelled as `Nat` with explicit `% 2^w` where overflow
matters.  The repository ships only the header files; functions whose bodies
live in the missing `.c` files are modelled from the specification and are
marked `Modelled from the spec:` in their doc comments.
-/

/-! ## Addressing constants and macros (from undolog.h) -/

/-- Number of blocks of BLCKSZ in an undo log segment file (undolog.h line 48). -/
def UNDOSEG_SIZE : Nat := 512

/-- PostgreSQL block size; the standard value 8192 assumed throughout the spec. -/
def BLCKSZ : Nat := 8192

/-- Size of an undo log segment file in bytes (undolog.h line 51). -/
def UndoLogSegmentSize : Nat := BLCKSZ * UNDOSEG_SIZE

/-- The width of an undo log number in bits (undolog.h line 54). -/
def UndoLogNumberBits : Nat := 24

/-- The width of an undo log offset in bits (undolog.h line 57). -/
def UndoLogOffsetBits : Nat := 64 - UndoLogNumberBits

/-- Special value indicating an invalid undo record pointer (undolog.h line 60). -/
def InvalidUndoRecPtr : Nat := 0

/-- All-ones sentinel used in transaction headers (undolog.h line 68).
`0xFFFFFFFFFFFFFFFF` as a `uint64`. -/
def SpecialUndoRecPtr : Nat := 0xFFFFFFFFFFFFFFFF

/-- The maximum amount of data that can be stored in an undo log
(undolog.h line 74). -/
def UndoLogMaxSize : Nat := 1 <<< UndoLogOffsetBits

/-- Make an UndoRecPtr from a log number and offset (undolog.h line 88);
`uint64` arithmetic, hence the reduction modulo `2^64`. -/
def MakeUndoRecPtr (logno offset : Nat) : Nat :=
  ((logno <<< UndoLogOffsetBits) ||| offset) % 2 ^ 64

/-- Extract the undo log number from an UndoRecPtr (undolog.h line 80). -/
def UndoRecPtrGetLogNo (urp : Nat) : Nat := urp >>> UndoLogOffsetBits

/-- Extract the offset from an UndoRecPtr (undolog.h line 84). -/
def UndoRecPtrGetOffset (urp : Nat) : Nat :=
  urp &&& ((1 <<< UndoLogOffsetBits) - 1)

/-- True iff the undo record pointer is valid (undolog.h line 107). -/
def UndoRecPtrIsValid (urp : Nat) : Bool := urp != InvalidUndoRecPtr

/-- Length of an undo checkpoint filename (undolog.h line 101). -/
def UNDO_CHECKPOINT_FILENAME_LENGTH : Nat := 16

/-- Modelled from the spec: `sizeof(PageHeaderData)` of the external buffer
cache (`storage/bufpage.h` is not part of this repository); the spec fixes
`PAGE_HEADER_SIZE = 24`. -/
def SizeOfPageHeaderData : Nat := 24

/-- The number of unusable bytes in the header of each block (undolog.h line 92). -/
def UndoLogBlockHeaderSize : Nat := SizeOfPageHeaderData

/-- The number of usable bytes we can store per block (undolog.h line 95). -/
def UndoLogUsableBytesPerPage : Nat := BLCKSZ - UndoLogBlockHeaderSize

/-! ## Arithmetic helpers about the packed pointer representation -/

/-- A shifted value or-ed with a small value is their sum: the bit ranges are
disjoint, so `(L <<< n) ||| O = 2^n * L + O` whenever `O < 2^n`. -/
theorem shiftLeft_lor_eq_add (L O n : Nat) (hO : O < 2 ^ n) :
    (L <<< n) ||| O = 2 ^ n * L + O := by
  apply Nat.eq_of_testBit_eq
  intro j
  rw [Nat.testBit_or, Nat.testBit_shiftLeft, Nat.testBit_mul_pow_two_add L hO j]
  by_cases hj : j < n
  · have : ¬ n ≤ j := by omega
    simp [this, hj]
  · have h1 : n ≤ j := by omega
    have h2 : O < 2 ^ j := lt_of_lt_of_le hO (Nat.pow_le_pow_right (by omega) h1)
    simp [h1, hj, Nat.testBit_lt_two_pow h2]

/-- For in-range components, `MakeUndoRecPtr` is the exact packed sum with no
64-bit wraparound. -/
theorem MakeUndoRecPtr_eq (L O : Nat) (hL : L < 2 ^ 24) (hO : O < 2 ^ 40) :
    MakeUndoRecPtr L O = 2 ^ 40 * L + O := by
  unfold MakeUndoRecPtr UndoLogOffsetBits UndoLogNumberBits
  rw [show (64 - 24 : Nat) = 40 from rfl, shiftLeft_lor_eq_add L O 40 hO]
  apply Nat.mod_eq_of_lt
  have : 2 ^ 40 * L ≤ 2 ^ 40 * (2 ^ 24 - 1) := Nat.mul_le_mul_left _ (by omega)
  have h64 : (2 : Nat) ^ 40 * (2 ^ 24 - 1) = 2 ^ 64 - 2 ^ 40 := by norm_num
  omega

/-- `UndoRecPtrGetOffset` computes the low 40 bits, i.e. reduction mod `2^40`. -/
theorem UndoRecPtrGetOffset_eq (urp : Nat) :
    UndoRecPtrGetOffset urp = urp % 2 ^ 40 := by
  unfold UndoRecPtrGetOffset UndoLogOffsetBits UndoLogNumberBits
  rw [show (64 - 24 : Nat) = 40 from rfl, Nat.shiftLeft_eq, one_mul,
    Nat.and_pow_two_sub_one_eq_mod]

/-- `UndoRecPtrGetLogNo` computes the high bits, i.e. division by `2^40`. -/
theorem UndoRecPtrGetLogNo_eq (urp : Nat) :
    UndoRecPtrGetLogNo urp = urp / 2 ^ 40 := by
  unfold UndoRecPtrGetLogNo UndoLogOffsetBits UndoLogNumberBits
  rw [show (64 - 24 : Nat) = 40 from rfl, Nat.shiftRight_eq_div_pow]

/-- Any extracted offset is below `2^40`. -/
theorem UndoRecPtrGetOffset_lt (urp : Nat) :
    UndoRecPtrGetOffset urp < 2 ^ 40 := by
  rw [UndoRecPtrGetOffset_eq]
  exact Nat.mod_lt _ (by norm_num)

/-- C4: the address law.  For every log number `L < 2^24` and offset
`O < 2^40`, unpacking `MakeUndoRecPtr L O` recovers exactly `L` and `O`. -/
theorem undo_rec_ptr_address_law (L O : Nat) (hL : L < 2 ^ 24) (hO : O < 2 ^ 40) :
    UndoRecPtrGetLogNo (MakeUndoRecPtr L O) = L ∧
    UndoRecPtrGetOffset (MakeUndoRecPtr L O) = O := by
  rw [UndoRecPtrGetLogNo_eq, UndoRecPtrGetOffset_eq, MakeUndoRecPtr_eq L O hL hO]
  constructor
  · rw [Nat.mul_add_div (by norm_num : 0 < 2 ^ 40), Nat.div_eq_of_lt hO, Nat.add_zero]
  · rw [Nat.mul_add_mod, Nat.mod_eq_of_lt hO]

/-- Closed witness for the address law at a concrete in-range input. -/
theorem undo_rec_ptr_address_law_witness :
    UndoRecPtrGetLogNo (MakeUndoRecPtr 5 77) = 5 ∧
    UndoRecPtrGetOffset (MakeUndoRecPtr 5 77) = 77 :=
  undo_rec_ptr_address_law 5 77 (by norm_num) (by norm_num)

/-- C9: the two sentinels are the extreme points of the packed address space:
`MakeUndoRecPtr 0 0` is `InvalidUndoRecPtr`, the highest addressable pair
packs to `SpecialUndoRecPtr`, and for in-range components the only pointer
`UndoRecPtrIsValid` rejects is the one made from `(0, 0)`. -/
theorem undo_rec_ptr_sentinels (L O : Nat) (hL : L < 2 ^ 24) (hO : O < 2 ^ 40) :
    MakeUndoRecPtr 0 0 = InvalidUndoRecPtr ∧
    MakeUndoRecPtr (2 ^ 24 - 1) (2 ^ 40 - 1) = SpecialUndoRecPtr ∧
    (UndoRecPtrIsValid (MakeUndoRecPtr L O) = false ↔ L = 0 ∧ O = 0) := by
  refine ⟨?_, ?_, ?_⟩
  · rw [MakeUndoRecPtr_eq 0 0 (by norm_num) (by norm_num)]
    rfl
  · rw [MakeUndoRecPtr_eq (2 ^ 24 - 1) (2 ^ 40 - 1) (by norm_num) (by norm_num)]
    unfold SpecialUndoRecPtr
    norm_num
  · rw [UndoRecPtrIsValid, MakeUndoRecPtr_eq L O hL hO]
    unfold InvalidUndoRecPtr
    simp only [bne_eq_false_iff_eq]
    constructor
    · intro h
      have := Nat.eq_zero_of_add_eq_zero_left h
      omega
    · rintro ⟨rfl, rfl⟩
      rfl

/-- Closed witness for the sentinel theorem at a concrete in-range input. -/
theorem undo_rec_ptr_sentinels_witness :
    MakeUndoRecPtr 0 0 = InvalidUndoRecPtr ∧
    MakeUndoRecPtr (2 ^ 24 - 1) (2 ^ 40 - 1) = SpecialUndoRecPtr ∧
    (UndoRecPtrIsValid (MakeUndoRecPtr 0 0) = false ↔ (0 : Nat) = 0 ∧ (0 : Nat) = 0) :=
  undo_rec_ptr_sentinels 0 0 (by norm_num) (by norm_num)

/-! ## C struct layout model (for the SizeOf macros in undorecord.h)

The size macros in undorecord.h are defined as
`offsetof(struct, last_field) + sizeof(last_field_type)`.  `offsetof` follows
the C struct layout rule: each field is placed at the next offset aligned to
the field's alignment.  We model the layout under the LP64 ABI PostgreSQL
targets (natural alignment: `uint64` and pointers are 8-byte aligned), which
is the setting the spec's byte counts refer to. -/

/-- Round `n` up to the next multiple of `a`. -/
def alignUp (n a : Nat) : Nat := ((n + a - 1) / a) * a

/-- Field offsets of a C struct given the `(size, alignment)` of each field,
in declaration order: each field starts at the next suitably aligned byte. -/
def structOffsets (fields : List (Nat × Nat)) : List Nat :=
  (fields.foldl
    (fun (acc : List Nat × Nat) (f : Nat × Nat) =>
      let off := alignUp acc.2 f.2
      (acc.1 ++ [off], off + f.1))
    ([], 0)).1

/-- `offsetof` of the `i`-th declared field. -/
def offsetofField (fields : List (Nat × Nat)) (i : Nat) : Nat :=
  (structOffsets fields).getD i 0

/-- `(size, alignment)` of the fields of `UndoRecordHeader`
(undorecord.h lines 41-60): `uint8 urec_type; uint8 urec_info;
uint16 urec_prevlen; Oid urec_relfilenode; TransactionId urec_prevxid;
TransactionId urec_xid; CommandId urec_cid;`. -/
def UndoRecordHeaderFields : List (Nat × Nat) :=
  [(1, 1), (1, 1), (2, 2), (4, 4), (4, 4), (4, 4), (4, 4)]

/-- `SizeOfUndoRecordHeader` (undorecord.h line 62):
`offsetof(UndoRecordHeader, urec_cid) + sizeof(CommandId)`. -/
def SizeOfUndoRecordHeader : Nat := offsetofField UndoRecordHeaderFields 6 + 4

/-- Fields of `UndoRecordRelationDetails` (undorecord.h lines 87-91):
`Oid urec_tsid; ForkNumber urec_fork;` (`ForkNumber` is an `int`-sized enum). -/
def UndoRecordRelationDetailsFields : List (Nat × Nat) := [(4, 4), (4, 4)]

/-- `SizeOfUndoRecordRelationDetails` (undorecord.h line 93):
`offsetof(UndoRecordRelationDetails, urec_fork) + sizeof(uint8)` — note the
deliberate `sizeof(uint8)`: the fork number occupies one byte on disk. -/
def SizeOfUndoRecordRelationDetails : Nat :=
  offsetofField UndoRecordRelationDetailsFields 1 + 1

/-- Fields of `UndoRecordBlock` (undorecord.h lines 100-105):
`uint64 urec_blkprev; BlockNumber urec_block; OffsetNumber urec_offset;`. -/
def UndoRecordBlockFields : List (Nat × Nat) := [(8, 8), (4, 4), (2, 2)]

/-- `SizeOfUndoRecordBlock` (undorecord.h line 107):
`offsetof(UndoRecordBlock, urec_offset) + sizeof(OffsetNumber)`. -/
def SizeOfUndoRecordBlock : Nat := offsetofField UndoRecordBlockFields 2 + 2

/-- Fields of `UndoRecordTransaction` (undorecord.h lines 114-118):
`uint32 urec_xidepoch; uint64 urec_next;`.  The `uint64` is 8-byte aligned,
so 4 bytes of interior padding sit between the two fields. -/
def UndoRecordTransactionFields : List (Nat × Nat) := [(4, 4), (8, 8)]

/-- `SizeOfUndoRecordTransaction` (undorecord.h line 120):
`offsetof(UndoRecordTransaction, urec_next) + sizeof(uint64)`. -/
def SizeOfUndoRecordTransaction : Nat :=
  offsetofField UndoRecordTransactionFields 1 + 8

/-- Fields of `UndoRecordPayload` (undorecord.h lines 129-133):
`uint16 urec_payload_len; uint16 urec_tuple_len;`. -/
def UndoRecordPayloadFields : List (Nat × Nat) := [(2, 2), (2, 2)]

/-- `SizeOfUndoRecordPayload` (undorecord.h line 135):
`offsetof(UndoRecordPayload, urec_tuple_len) + sizeof(uint16)`. -/
def SizeOfUndoRecordPayload : Nat := offsetofField UndoRecordPayloadFields 1 + 2

/-- Sanity: the four size macros other than the Transaction one equal the
packed byte counts of the spec's section table. -/
theorem sizeof_macros_packed :
    SizeOfUndoRecordHeader = 20 ∧
    SizeOfUndoRecordRelationDetails = 5 ∧
    SizeOfUndoRecordBlock = 14 ∧
    SizeOfUndoRecordPayload = 4 := by
  refine ⟨?_, ?_, ?_, ?_⟩ <;> rfl

/-! ## Record codec

`UndoRecordExpectedSize`, `InsertUndoRecord` and `UnpackUndoRecord` are
declared in undorecord.h (lines 177, 195, 208) but their bodies live in a
`.c` file the repository does not ship.  Following the spec's Record Codec
section, the serialized form is the fixed header followed by the optional
sections in the order Header, RelationDetails, Block, Transaction,
Payload sizes, payload bytes, tuple bytes — packed without padding, each
multi-byte integer emitted as explicit bytes (host order; we fix the
little-endian byte split, which is immaterial to the properties proved). -/

/-- Flag bit: an UndoRecordRelationDetails section follows (undorecord.h line 77). -/
def UREC_INFO_RELATION_DETAILS : Nat := 0x01

/-- Flag bit: an UndoRecordBlock section follows (undorecord.h line 78). -/
def UREC_INFO_BLOCK : Nat := 0x02

/-- Flag bit: an UndoRecordPayload section follows (undorecord.h line 79). -/
def UREC_INFO_PAYLOAD : Nat := 0x04

/-- Flag bit: an UndoRecordTransaction section follows (undorecord.h line 80). -/
def UREC_INFO_TRANSACTION : Nat := 0x08

/-- Modelled from the spec: the default tablespace OID
(`DEFAULTTABLESPACE_OID` from the catalog headers, not in this repository). -/
def DEFAULTTABLESPACE_OID : Nat := 1663

/-- Modelled from the spec: the main data fork number (`MAIN_FORKNUM` from
`common/relpath.h`, not in this repository). -/
def MAIN_FORKNUM : Nat := 0

/-- Modelled from the spec: `InvalidBlockNumber` from `storage/block.h`
(not in this repository): all-ones `uint32`. -/
def InvalidBlockNumber : Nat := 0xFFFFFFFF

/-- Modelled from the spec: `InvalidOffsetNumber` from `storage/off.h`
(not in this repository): zero. -/
def InvalidOffsetNumber : Nat := 0

/-- The in-memory intermediate form of an undo record
(undorecord.h lines 152-171).  The `uur_buffer` field is a handle into the
external buffer cache, not part of the record's content, and is omitted.
Byte-string fields (`StringInfoData`) are byte lists. -/
structure UnpackedUndoRecord where
  uur_type : Nat
  uur_info : Nat
  uur_prevlen : Nat
  uur_relfilenode : Nat
  uur_prevxid : Nat
  uur_xid : Nat
  uur_cid : Nat
  uur_tsid : Nat
  uur_fork : Nat
  uur_blkprev : Nat
  uur_block : Nat
  uur_offset : Nat
  uur_xidepoch : Nat
  uur_next : Nat
  uur_payload : List Nat
  uur_tuple : List Nat
deriving DecidableEq, Repr

/-- Modelled from the spec: the RelationDetails section may be omitted iff the
tablespace is the default and the fork is the main fork (undorecord.h
lines 82-86), so the flag is implied by a non-default value. -/
def needsRelationDetails (u : UnpackedUndoRecord) : Bool :=
  u.uur_tsid != DEFAULTTABLESPACE_OID || u.uur_fork != MAIN_FORKNUM

/-- Modelled from the spec: the Block section is implied by non-default block
identification fields. -/
def needsBlock (u : UnpackedUndoRecord) : Bool :=
  u.uur_block != InvalidBlockNumber || u.uur_blkprev != InvalidUndoRecPtr ||
    u.uur_offset != InvalidOffsetNumber

/-- Modelled from the spec: the Transaction section is present only on the
first record of a transaction in a log, signalled by non-default
transaction-header fields. -/
def needsTransaction (u : UnpackedUndoRecord) : Bool :=
  u.uur_next != InvalidUndoRecPtr || u.uur_xidepoch != 0

/-- Modelled from the spec: the Payload section is implied by non-empty
payload or tuple bytes. -/
def needsPayload (u : UnpackedUndoRecord) : Bool :=
  u.uur_payload.length != 0 || u.uur_tuple.length != 0

/-- Modelled from the spec: the flag byte `UndoRecordExpectedSize` and
`InsertUndoRecord` compute as a side effect into `uur_info`, OR-ing the bits
implied by which optional fields are non-default. -/
def UndoRecordComputeInfo (u : UnpackedUndoRecord) : Nat :=
  (if needsRelationDetails u then UREC_INFO_RELATION_DETAILS else 0) |||
  (if needsBlock u then UREC_INFO_BLOCK else 0) |||
  (if needsPayload u then UREC_INFO_PAYLOAD else 0) |||
  (if needsTransaction u then UREC_INFO_TRANSACTION else 0)

/-- Split a value into `w` bytes, least significant first (the codec copies
integers byte by byte; we fix the little-endian split). -/
def leBytes : Nat → Nat → List Nat
  | 0, _ => []
  | w + 1, v => v % 256 :: leBytes w (v / 256)

/-- Reassemble a byte list, least significant byte first. -/
def leVal : List Nat → Nat
  | [] => 0
  | b :: bs => b + 256 * leVal bs

/-- Serialized bytes of the fixed `UndoRecordHeader` section, with the given
flag byte in `urec_info` position. -/
def serializeHeader (u : UnpackedUndoRecord) (info : Nat) : List Nat :=
  leBytes 1 u.uur_type ++ leBytes 1 info ++ leBytes 2 u.uur_prevlen ++
  leBytes 4 u.uur_relfilenode ++ leBytes 4 u.uur_prevxid ++
  leBytes 4 u.uur_xid ++ leBytes 4 u.uur_cid

/-- Serialized bytes of the RelationDetails section: 4-byte tablespace OID
plus 1-byte fork number. -/
def serializeRelationDetails (u : UnpackedUndoRecord) : List Nat :=
  leBytes 4 u.uur_tsid ++ leBytes 1 u.uur_fork

/-- Serialized bytes of the Block section: 8-byte blkprev, 4-byte block
number, 2-byte offset number. -/
def serializeBlock (u : UnpackedUndoRecord) : List Nat :=
  leBytes 8 u.uur_blkprev ++ leBytes 4 u.uur_block ++ leBytes 2 u.uur_offset

/-- Serialized bytes of the Transaction section: 4-byte xid epoch plus 8-byte
next-transaction pointer (12 bytes, packed). -/
def serializeTransaction (u : UnpackedUndoRecord) : List Nat :=
  leBytes 4 u.uur_xidepoch ++ leBytes 8 u.uur_next

/-- Serialized bytes of the Payload sizes section: two 2-byte lengths. -/
def serializePayloadSizes (u : UnpackedUndoRecord) : List Nat :=
  leBytes 2 u.uur_payload.length ++ leBytes 2 u.uur_tuple.length

/-- Modelled from the spec: the canonical serialization of an undo record —
the byte stream that the chain of `InsertUndoRecord` calls emits
(undorecord.h line 195; body in the missing undorecord.c).  Sections appear
in the spec's fixed order and are packed without padding. -/
def InsertUndoRecordBytes (u : UnpackedUndoRecord) : List Nat :=
  serializeHeader u (UndoRecordComputeInfo u) ++
  (if needsRelationDetails u then serializeRelationDetails u else []) ++
  (if needsBlock u then serializeBlock u else []) ++
  (if needsTransaction u then serializeTransaction u else []) ++
  (if needsPayload u then
    serializePayloadSizes u ++ u.uur_payload ++ u.uur_tuple
  else [])

/-- Modelled from the spec: `UndoRecordExpectedSize` (undorecord.h line 177;
body in the missing undorecord.c) — the byte length computed from the flag
set and the payload/tuple lengths. -/
def UndoRecordExpectedSize (u : UnpackedUndoRecord) : Nat :=
  20 +
  (if needsRelationDetails u then 5 else 0) +
  (if needsBlock u then 14 else 0) +
  (if needsTransaction u then 12 else 0) +
  (if needsPayload u then 4 + u.uur_payload.length + u.uur_tuple.length else 0)

/-- Read `w` bytes as a little-endian value, returning the remainder of the
stream; fails if fewer than `w` bytes remain. -/
def readLE (w : Nat) (bs : List Nat) : Option (Nat × List Nat) :=
  if w ≤ bs.length then some (leVal (bs.take w), bs.drop w) else none

/-- Read `w` raw bytes, returning them and the remainder of the stream;
fails if fewer than `w` bytes remain. -/
def readRaw (w : Nat) (bs : List Nat) : Option (List Nat × List Nat) :=
  if w ≤ bs.length then some (bs.take w, bs.drop w) else none

/-- Parse the fixed header: type, info, prevlen, relfilenode, prevxid, xid,
cid, in declaration order. -/
def parseHeader (bs : List Nat) :
    Option ((Nat × Nat × Nat × Nat × Nat × Nat × Nat) × List Nat) := do
  let (t, bs) ← readLE 1 bs
  let (info, bs) ← readLE 1 bs
  let (plen, bs) ← readLE 2 bs
  let (rfn, bs) ← readLE 4 bs
  let (pxid, bs) ← readLE 4 bs
  let (x, bs) ← readLE 4 bs
  let (cid, bs) ← readLE 4 bs
  pure ((t, info, plen, rfn, pxid, x, cid), bs)

/-- Parse the RelationDetails section if its flag is set in `info`;
otherwise yield the default tablespace and fork. -/
def parseRelationDetails (info : Nat) (bs : List Nat) :
    Option ((Nat × Nat) × List Nat) :=
  if info &&& UREC_INFO_RELATION_DETAILS != 0 then do
    let (tsid, bs) ← readLE 4 bs
    let (fork, bs) ← readLE 1 bs
    pure ((tsid, fork), bs)
  else pure ((DEFAULTTABLESPACE_OID, MAIN_FORKNUM), bs)

/-- Parse the Block section if its flag is set in `info`; otherwise yield the
invalid/default block identification. -/
def parseBlock (info : Nat) (bs : List Nat) :
    Option ((Nat × Nat × Nat) × List Nat) :=
  if info &&& UREC_INFO_BLOCK != 0 then do
    let (blkprev, bs) ← readLE 8 bs
    let (blk, bs) ← readLE 4 bs
    let (off, bs) ← readLE 2 bs
    pure ((blkprev, blk, off), bs)
  else pure ((InvalidUndoRecPtr, InvalidBlockNumber, InvalidOffsetNumber), bs)

/-- Parse the Transaction section if its flag is set in `info`; otherwise
yield the default epoch and the invalid next-transaction pointer. -/
def parseTransaction (info : Nat) (bs : List Nat) :
    Option ((Nat × Nat) × List Nat) :=
  if info &&& UREC_INFO_TRANSACTION != 0 then do
    let (epoch, bs) ← readLE 4 bs
    let (nxt, bs) ← readLE 8 bs
    pure ((epoch, nxt), bs)
  else pure ((0, InvalidUndoRecPtr), bs)

/-- Parse the Payload sizes section and the payload and tuple byte runs if the
payload flag is set in `info`; otherwise yield empty byte strings. -/
def parsePayload (info : Nat) (bs : List Nat) :
    Option ((List Nat × List Nat) × List Nat) :=
  if info &&& UREC_INFO_PAYLOAD != 0 then do
    let (plen, bs) ← readLE 2 bs
    let (tlen, bs) ← readLE 2 bs
    let (payload, bs) ← readRaw plen bs
    let (tuple, bs) ← readRaw tlen bs
    pure ((payload, tuple), bs)
  else pure (([], []), bs)

/-- Modelled from the spec: the decoder realized by the chain of
`UnpackUndoRecord` calls (undorecord.h line 208; body in the missing
undorecord.c): read the header first, then the optional sections gated by the
flag byte in their fixed order; fields of absent sections are set to their
default or invalid values. -/
def UnpackUndoRecordBytes (bs : List Nat) : Option UnpackedUndoRecord := do
  let ((t, info, plen, rfn, pxid, x, cid), bs) ← parseHeader bs
  let ((tsid, fork), bs) ← parseRelationDetails info bs
  let ((blkprev, blk, off), bs) ← parseBlock info bs
  let ((epoch, nxt), bs) ← parseTransaction info bs
  let ((payload, tuple), _) ← parsePayload info bs
  pure
    { uur_type := t, uur_info := info, uur_prevlen := plen,
      uur_relfilenode := rfn, uur_prevxid := pxid, uur_xid := x,
      uur_cid := cid, uur_tsid := tsid, uur_fork := fork,
      uur_blkprev := blkprev, uur_block := blk, uur_offset := off,
      uur_xidepoch := epoch, uur_next := nxt,
      uur_payload := payload, uur_tuple := tuple }

/-- Split a byte stream into consecutive runs of `max n 1` bytes (fuel-based
structural recursion so that concrete instances reduce definitionally). -/
def chunksOfAux : Nat → Nat → List Nat → List (List Nat)
  | 0, _, _ => []
  | _ + 1, _, [] => []
  | fuel + 1, n, b :: rest =>
      (b :: rest).take (max n 1) :: chunksOfAux fuel n ((b :: rest).drop (max n 1))

/-- Split a byte stream into consecutive runs of `max n 1` bytes. -/
def chunksOf (n : Nat) (bs : List Nat) : List (List Nat) :=
  chunksOfAux bs.length n bs

/-- Modelled from the spec: writing a record into a fresh page sequence with
repeated `InsertUndoRecord` calls.  On a fresh sequence the record starts
right after the first page's header and continues immediately after each
subsequent page header, so each page carries the next
`UndoLogUsableBytesPerPage` bytes of the canonical serialization. -/
def InsertUndoRecordIntoFreshPages (u : UnpackedUndoRecord) : List (List Nat) :=
  chunksOf UndoLogUsableBytesPerPage (InsertUndoRecordBytes u)

/-- Modelled from the spec: decoding with repeated `UnpackUndoRecord` calls —
each call consumes one page's usable bytes, so the chain decodes the
concatenation of the per-page byte runs. -/
def UnpackUndoRecordFromPages (pages : List (List Nat)) :
    Option UnpackedUndoRecord :=
  UnpackUndoRecordBytes pages.flatten

/-- A valid in-memory record: `uur_info` still 0 (as required before the
first `UndoRecordExpectedSize` or `InsertUndoRecord` call, undorecord.h
lines 144-147) and every integer field within the range of its declared C
type. -/
def WellFormedUnpacked (u : UnpackedUndoRecord) : Prop :=
  u.uur_info = 0 ∧
  u.uur_type < 2 ^ 8 ∧ u.uur_prevlen < 2 ^ 16 ∧
  u.uur_relfilenode < 2 ^ 32 ∧ u.uur_prevxid < 2 ^ 32 ∧
  u.uur_xid < 2 ^ 32 ∧ u.uur_cid < 2 ^ 32 ∧
  u.uur_tsid < 2 ^ 32 ∧ u.uur_fork < 2 ^ 8 ∧
  u.uur_blkprev < 2 ^ 64 ∧ u.uur_block < 2 ^ 32 ∧ u.uur_offset < 2 ^ 16 ∧
  u.uur_xidepoch < 2 ^ 32 ∧ u.uur_next < 2 ^ 64 ∧
  u.uur_payload.length < 2 ^ 16 ∧ u.uur_tuple.length < 2 ^ 16

/-! ## Codec lemmas -/

/-- `leBytes` always produces exactly `w` bytes. -/
theorem leBytes_length : ∀ w v : Nat, (leBytes w v).length = w
  | 0, _ => rfl
  | w + 1, v => by simp [leBytes, leBytes_length w]

/-- Reassembly is the left inverse of the byte split for in-range values. -/
theorem leVal_leBytes : ∀ w v : Nat, v < 256 ^ w → leVal (leBytes w v) = v
  | 0, v, h => by
    simp only [leBytes, leVal]
    omega
  | w + 1, v, h => by
    have hdiv : v / 256 < 256 ^ w := by
      rw [Nat.div_lt_iff_lt_mul (by norm_num : (0 : Nat) < 256)]
      rw [pow_succ] at h
      exact h
    simp only [leBytes, leVal, leVal_leBytes w (v / 256) hdiv]
    omega

/-- Reading `w` little-endian bytes directly after a `w`-byte split recovers
the value and leaves the rest of the stream. -/
theorem readLE_leBytes (w v : Nat) (rest : List Nat) (h : v < 2 ^ (8 * w)) :
    readLE w (leBytes w v ++ rest) = some (v, rest) := by
  have hlen : (leBytes w v).length = w := leBytes_length w v
  have h' : v < 256 ^ w := by
    rw [pow_mul] at h
    norm_num at h
    exact h
  rw [readLE, if_pos (by simp [hlen])]
  rw [List.take_left' hlen, List.drop_left' hlen, leVal_leBytes w v h']

/-- Reading a raw run of the right length recovers it and leaves the rest. -/
theorem readRaw_append (xs rest : List Nat) :
    readRaw xs.length (xs ++ rest) = some (xs, rest) := by
  rw [readRaw, if_pos (by simp)]
  rw [List.take_left, List.drop_left]

/-- The computed flag byte fits in one byte. -/
theorem UndoRecordComputeInfo_lt (u : UnpackedUndoRecord) :
    UndoRecordComputeInfo u < 2 ^ 8 := by
  unfold UndoRecordComputeInfo
  cases needsRelationDetails u <;> cases needsBlock u <;>
    cases needsPayload u <;> cases needsTransaction u <;> decide

/-- Testing the RelationDetails bit of the computed flag byte. -/
theorem info_test_relation_details (u : UnpackedUndoRecord) :
    (UndoRecordComputeInfo u &&& UREC_INFO_RELATION_DETAILS != 0) =
      needsRelationDetails u := by
  unfold UndoRecordComputeInfo
  cases needsRelationDetails u <;> cases needsBlock u <;>
    cases needsPayload u <;> cases needsTransaction u <;> decide

/-- Testing the Block bit of the computed flag byte. -/
theorem info_test_block (u : UnpackedUndoRecord) :
    (UndoRecordComputeInfo u &&& UREC_INFO_BLOCK != 0) = needsBlock u := by
  unfold UndoRecordComputeInfo
  cases needsRelationDetails u <;> cases needsBlock u <;>
    cases needsPayload u <;> cases needsTransaction u <;> decide

/-- Testing the Payload bit of the computed flag byte. -/
theorem info_test_payload (u : UnpackedUndoRecord) :
    (UndoRecordComputeInfo u &&& UREC_INFO_PAYLOAD != 0) = needsPayload u := by
  unfold UndoRecordComputeInfo
  cases needsRelationDetails u <;> cases needsBlock u <;>
    cases needsPayload u <;> cases needsTransaction u <;> decide

/-- Testing the Transaction bit of the computed flag byte. -/
theorem info_test_transaction (u : UnpackedUndoRecord) :
    (UndoRecordComputeInfo u &&& UREC_INFO_TRANSACTION != 0) =
      needsTransaction u := by
  unfold UndoRecordComputeInfo
  cases needsRelationDetails u <;> cases needsBlock u <;>
    cases needsPayload u <;> cases needsTransaction u <;> decide

/-- Unconditional reassembly: the byte split reassembles to the value reduced
to the field width. -/
theorem leVal_leBytes_mod : ∀ w v : Nat, leVal (leBytes w v) = v % 256 ^ w
  | 0, v => by simp [leBytes, leVal]; omega
  | w + 1, v => by
    simp only [leBytes, leVal, leVal_leBytes_mod w (v / 256)]
    rw [pow_succ, Nat.mul_comm (256 ^ w) 256, Nat.mod_mul]

/-- Reading `w` little-endian bytes directly after a `w`-byte split yields the
value reduced to the field width and leaves the rest of the stream. -/
theorem readLE_leBytes_mod (w v : Nat) (rest : List Nat) :
    readLE w (leBytes w v ++ rest) = some (v % 256 ^ w, rest) := by
  have hlen : (leBytes w v).length = w := leBytes_length w v
  rw [readLE, if_pos (by simp [hlen])]
  rw [List.take_left' hlen, List.drop_left' hlen, leVal_leBytes_mod w v]

/-- Parsing a serialized header recovers every header field and leaves the
rest of the stream untouched. -/
theorem parseHeader_serialize (u : UnpackedUndoRecord) (info : Nat)
    (rest : List Nat)
    (ht : u.uur_type < 2 ^ 8) (hi : info < 2 ^ 8) (hp : u.uur_prevlen < 2 ^ 16)
    (hr : u.uur_relfilenode < 2 ^ 32) (hpx : u.uur_prevxid < 2 ^ 32)
    (hx : u.uur_xid < 2 ^ 32) (hc : u.uur_cid < 2 ^ 32) :
    parseHeader (serializeHeader u info ++ rest) =
      some ((u.uur_type, info, u.uur_prevlen, u.uur_relfilenode, u.uur_prevxid,
        u.uur_xid, u.uur_cid), rest) := by
  have e1 : u.uur_type % 256 ^ 1 = u.uur_type := Nat.mod_eq_of_lt (by omega)
  have e2 : info % 256 ^ 1 = info := Nat.mod_eq_of_lt (by omega)
  have e3 : u.uur_prevlen % 256 ^ 2 = u.uur_prevlen := Nat.mod_eq_of_lt (by omega)
  have e4 : u.uur_relfilenode % 256 ^ 4 = u.uur_relfilenode :=
    Nat.mod_eq_of_lt (by omega)
  have e5 : u.uur_prevxid % 256 ^ 4 = u.uur_prevxid := Nat.mod_eq_of_lt (by omega)
  have e6 : u.uur_xid % 256 ^ 4 = u.uur_xid := Nat.mod_eq_of_lt (by omega)
  have e7 : u.uur_cid % 256 ^ 4 = u.uur_cid := Nat.mod_eq_of_lt (by omega)
  simp [parseHeader, serializeHeader, List.append_assoc, readLE_leBytes_mod,
    e1, e2, e3, e4, e5, e6, e7]
  omega

/-- Parsing at the RelationDetails position: a present section parses to its
fields; an absent section (flag clear) yields the defaults, which by
definition of `needsRelationDetails` coincide with the record's fields. -/
theorem parseRelationDetails_step (u : UnpackedUndoRecord) (rest : List Nat)
    (hts : u.uur_tsid < 2 ^ 32) (hfk : u.uur_fork < 2 ^ 8) :
    parseRelationDetails (UndoRecordComputeInfo u)
        ((if needsRelationDetails u then serializeRelationDetails u else []) ++
          rest) =
      some ((u.uur_tsid, u.uur_fork), rest) := by
  have e1 : u.uur_tsid % 256 ^ 4 = u.uur_tsid := Nat.mod_eq_of_lt (by omega)
  have e2 : u.uur_fork % 256 ^ 1 = u.uur_fork := Nat.mod_eq_of_lt (by omega)
  rw [parseRelationDetails, info_test_relation_details]
  cases hrd : needsRelationDetails u with
  | false =>
    have := hrd
    simp only [needsRelationDetails, Bool.or_eq_false_iff, bne_eq_false_iff_eq]
      at this
    simp [this.1, this.2]
  | true =>
    simp [serializeRelationDetails, List.append_assoc, readLE_leBytes_mod,
      e1, e2]
    omega

/-- Parsing at the Block position: a present section parses to its fields; an
absent section yields the invalid/default block identification, which by
definition of `needsBlock` coincides with the record's fields. -/
theorem parseBlock_step (u : UnpackedUndoRecord) (rest : List Nat)
    (hbp : u.uur_blkprev < 2 ^ 64) (hbk : u.uur_block < 2 ^ 32)
    (hof : u.uur_offset < 2 ^ 16) :
    parseBlock (UndoRecordComputeInfo u)
        ((if needsBlock u then serializeBlock u else []) ++ rest) =
      some ((u.uur_blkprev, u.uur_block, u.uur_offset), rest) := by
  have e1 : u.uur_blkprev % 256 ^ 8 = u.uur_blkprev := Nat.mod_eq_of_lt (by omega)
  have e2 : u.uur_block % 256 ^ 4 = u.uur_block := Nat.mod_eq_of_lt (by omega)
  have e3 : u.uur_offset % 256 ^ 2 = u.uur_offset := Nat.mod_eq_of_lt (by omega)
  rw [parseBlock, info_test_block]
  cases hbl : needsBlock u with
  | false =>
    have := hbl
    simp only [needsBlock, Bool.or_eq_false_iff, bne_eq_false_iff_eq] at this
    simp [this.1.1, this.1.2, this.2]
  | true =>
    simp [serializeBlock, List.append_assoc, readLE_leBytes_mod, e1, e2, e3]
    omega

/-- Parsing at the Transaction position: a present section parses to its
fields; an absent section yields the defaults, which by definition of
`needsTransaction` coincide with the record's fields. -/
theorem parseTransaction_step (u : UnpackedUndoRecord) (rest : List Nat)
    (hep : u.uur_xidepoch < 2 ^ 32) (hnx : u.uur_next < 2 ^ 64) :
    parseTransaction (UndoRecordComputeInfo u)
        ((if needsTransaction u then serializeTransaction u else []) ++ rest) =
      some ((u.uur_xidepoch, u.uur_next), rest) := by
  have e1 : u.uur_xidepoch % 256 ^ 4 = u.uur_xidepoch :=
    Nat.mod_eq_of_lt (by omega)
  have e2 : u.uur_next % 256 ^ 8 = u.uur_next := Nat.mod_eq_of_lt (by omega)
  rw [parseTransaction, info_test_transaction]
  cases htx : needsTransaction u with
  | false =>
    have := htx
    simp only [needsTransaction, Bool.or_eq_false_iff, bne_eq_false_iff_eq]
      at this
    simp [this.1, this.2]
  | true =>
    simp [serializeTransaction, List.append_assoc, readLE_leBytes_mod, e1, e2]
    omega

/-- Parsing at the Payload position: a present section parses the two lengths
and then exactly that many payload and tuple bytes; an absent section yields
empty byte strings, which by definition of `needsPayload` coincide with the
record's fields. -/
theorem parsePayload_step (u : UnpackedUndoRecord) (rest : List Nat)
    (hpl : u.uur_payload.length < 2 ^ 16) (htl : u.uur_tuple.length < 2 ^ 16) :
    parsePayload (UndoRecordComputeInfo u)
        ((if needsPayload u then
            serializePayloadSizes u ++ u.uur_payload ++ u.uur_tuple
          else []) ++ rest) =
      some ((u.uur_payload, u.uur_tuple), rest) := by
  have e1 : u.uur_payload.length % 256 ^ 2 = u.uur_payload.length :=
    Nat.mod_eq_of_lt (by omega)
  have e2 : u.uur_tuple.length % 256 ^ 2 = u.uur_tuple.length :=
    Nat.mod_eq_of_lt (by omega)
  rw [parsePayload, info_test_payload]
  cases hpy : needsPayload u with
  | false =>
    have := hpy
    simp only [needsPayload, Bool.or_eq_false_iff, bne_eq_false_iff_eq] at this
    have h1 : u.uur_payload = [] := List.length_eq_zero.mp this.1
    have h2 : u.uur_tuple = [] := List.length_eq_zero.mp this.2
    simp [h1, h2]
  | true =>
    simp only [if_true, serializePayloadSizes, List.append_assoc]
    rw [readLE_leBytes_mod, e1]
    simp only [Option.bind_eq_bind, Option.some_bind]
    rw [readLE_leBytes_mod, e2]
    simp only [Option.some_bind]
    rw [readRaw_append, Option.some_bind, readRaw_append, Option.some_bind]
    rfl

/-- Concatenating the page-sized runs reproduces the byte stream. -/
theorem chunksOfAux_flatten :
    ∀ (fuel n : Nat) (bs : List Nat), bs.length ≤ fuel →
      (chunksOfAux fuel n bs).flatten = bs
  | 0, _, bs, h => by
    have hbs : bs = [] := List.length_eq_zero.mp (Nat.le_zero.mp h)
    subst hbs
    rfl
  | _ + 1, _, [], _ => rfl
  | fuel + 1, n, b :: rest, h => by
    have hlen : ((b :: rest).drop (max n 1)).length ≤ fuel := by
      simp only [List.length_drop, List.length_cons]
      simp only [List.length_cons] at h
      omega
    simp only [chunksOfAux, List.flatten_cons,
      chunksOfAux_flatten fuel n _ hlen]
    exact List.take_append_drop _ _

/-- The page chunking loses no bytes: flattening the per-page runs yields the
canonical serialization back. -/
theorem chunksOf_flatten (n : Nat) (bs : List Nat) :
    (chunksOf n bs).flatten = bs :=
  chunksOfAux_flatten bs.length n bs (Nat.le_refl _)

/-- C1: codec round trip.  For every valid `UnpackedUndoRecord` (with
`uur_info` initially 0), serializing with repeated `InsertUndoRecord` calls
into a fresh page sequence and decoding those pages with repeated
`UnpackUndoRecord` calls yields a record whose non-payload fields equal the
original's, whose payload and tuple bytes are bit-identical, and whose flag
byte differs only in the bits implied by non-default field values. -/
theorem undo_record_round_trip (u : UnpackedUndoRecord)
    (h : WellFormedUnpacked u) :
    UnpackUndoRecordFromPages (InsertUndoRecordIntoFreshPages u) =
      some { u with uur_info := UndoRecordComputeInfo u } := by
  obtain ⟨h0, ht, hp, hr, hpx, hx, hc, hts, hfk, hbp, hbk, hof, hep, hnx,
    hpl, htl⟩ := h
  rw [UnpackUndoRecordFromPages, InsertUndoRecordIntoFreshPages,
    chunksOf_flatten]
  rw [UnpackUndoRecordBytes, InsertUndoRecordBytes]
  rw [List.append_assoc, List.append_assoc, List.append_assoc]
  rw [show (if needsPayload u then
        serializePayloadSizes u ++ u.uur_payload ++ u.uur_tuple
      else []) =
      (if needsPayload u then
        serializePayloadSizes u ++ u.uur_payload ++ u.uur_tuple
      else []) ++ ([] : List Nat) from (List.append_nil _).symm]
  rw [parseHeader_serialize u _ _ ht (UndoRecordComputeInfo_lt u) hp hr hpx
    hx hc]
  simp only [Option.bind_eq_bind, Option.some_bind]
  rw [parseRelationDetails_step u _ hts hfk]
  simp only [Option.some_bind]
  rw [parseBlock_step u _ hbp hbk hof]
  simp only [Option.some_bind]
  rw [parseTransaction_step u _ hep hnx]
  simp only [Option.some_bind]
  rw [parsePayload_step u [] hpl htl]
  simp only [Option.some_bind]
  rfl

/-- A concrete record with every optional section present, used to witness
the round-trip theorem. -/
def uRoundTripExample : UnpackedUndoRecord :=
  { uur_type := 2, uur_info := 0, uur_prevlen := 40,
    uur_relfilenode := 16384, uur_prevxid := 100, uur_xid := 101,
    uur_cid := 3, uur_tsid := 1664, uur_fork := 1, uur_blkprev := 5000,
    uur_block := 7, uur_offset := 12, uur_xidepoch := 1,
    uur_next := 81985529216486895, uur_payload := [10, 20, 30],
    uur_tuple := [1, 2] }

/-- Closed witness for the round trip at a concrete record. -/
theorem undo_record_round_trip_witness :
    UnpackUndoRecordFromPages (InsertUndoRecordIntoFreshPages
        uRoundTripExample) =
      some { uRoundTripExample with
              uur_info := UndoRecordComputeInfo uRoundTripExample } :=
  undo_record_round_trip uRoundTripExample
    (by simp only [WellFormedUnpacked]; decide)

/-- The serialized header is 20 bytes. -/
theorem serializeHeader_length (u : UnpackedUndoRecord) (info : Nat) :
    (serializeHeader u info).length = 20 := by
  simp [serializeHeader, leBytes_length]

/-- The RelationDetails slot occupies 5 bytes when present and 0 otherwise. -/
theorem relationDetails_slot_length (u : UnpackedUndoRecord) :
    (if needsRelationDetails u then serializeRelationDetails u else []).length
      = (if needsRelationDetails u then 5 else 0) := by
  cases needsRelationDetails u <;> simp [serializeRelationDetails, leBytes_length]

/-- The Block slot occupies 14 bytes when present and 0 otherwise. -/
theorem block_slot_length (u : UnpackedUndoRecord) :
    (if needsBlock u then serializeBlock u else []).length
      = (if needsBlock u then 14 else 0) := by
  cases needsBlock u <;> simp [serializeBlock, leBytes_length]

/-- The Transaction slot occupies 12 bytes when present and 0 otherwise. -/
theorem transaction_slot_length (u : UnpackedUndoRecord) :
    (if needsTransaction u then serializeTransaction u else []).length
      = (if needsTransaction u then 12 else 0) := by
  cases needsTransaction u <;> simp [serializeTransaction, leBytes_length]

/-- The Payload slot occupies `4 + payload + tuple` bytes when present and 0
otherwise. -/
theorem payload_slot_length (u : UnpackedUndoRecord) :
    (if needsPayload u then
        serializePayloadSizes u ++ u.uur_payload ++ u.uur_tuple
      else []).length
      = (if needsPayload u then
          4 + u.uur_payload.length + u.uur_tuple.length
        else 0) := by
  cases needsPayload u <;> simp [serializePayloadSizes, leBytes_length]
  omega

/-- The serialization decomposed with right-nested appends. -/
theorem InsertUndoRecordBytes_decomp (u : UnpackedUndoRecord) :
    InsertUndoRecordBytes u =
      serializeHeader u (UndoRecordComputeInfo u) ++
      ((if needsRelationDetails u then serializeRelationDetails u else []) ++
        ((if needsBlock u then serializeBlock u else []) ++
          ((if needsTransaction u then serializeTransaction u else []) ++
            (if needsPayload u then
              serializePayloadSizes u ++ u.uur_payload ++ u.uur_tuple
            else [])))) := by
  rw [InsertUndoRecordBytes, List.append_assoc, List.append_assoc,
    List.append_assoc]

/-- C3: sections appear strictly in the order Header, RelationDetails, Block,
Transaction, Payload sizes, payload bytes, tuple bytes, packed without
padding: the total length is the exact sum of the packed section sizes, each
section parses at exactly the cumulative packed offset of the sections before
it, and the payload and tuple byte runs occupy the final bytes. -/
theorem undo_record_sections_in_order (u : UnpackedUndoRecord)
    (h : WellFormedUnpacked u) :
    (InsertUndoRecordBytes u).length = UndoRecordExpectedSize u ∧
    parseRelationDetails (UndoRecordComputeInfo u)
        ((InsertUndoRecordBytes u).drop 20) =
      some ((u.uur_tsid, u.uur_fork),
        (InsertUndoRecordBytes u).drop
          (20 + (if needsRelationDetails u then 5 else 0))) ∧
    parseBlock (UndoRecordComputeInfo u)
        ((InsertUndoRecordBytes u).drop
          (20 + (if needsRelationDetails u then 5 else 0))) =
      some ((u.uur_blkprev, u.uur_block, u.uur_offset),
        (InsertUndoRecordBytes u).drop
          (20 + (if needsRelationDetails u then 5 else 0) +
            (if needsBlock u then 14 else 0))) ∧
    parseTransaction (UndoRecordComputeInfo u)
        ((InsertUndoRecordBytes u).drop
          (20 + (if needsRelationDetails u then 5 else 0) +
            (if needsBlock u then 14 else 0))) =
      some ((u.uur_xidepoch, u.uur_next),
        (InsertUndoRecordBytes u).drop
          (20 + (if needsRelationDetails u then 5 else 0) +
            (if needsBlock u then 14 else 0) +
            (if needsTransaction u then 12 else 0))) ∧
    parsePayload (UndoRecordComputeInfo u)
        ((InsertUndoRecordBytes u).drop
          (20 + (if needsRelationDetails u then 5 else 0) +
            (if needsBlock u then 14 else 0) +
            (if needsTransaction u then 12 else 0))) =
      some ((u.uur_payload, u.uur_tuple), []) ∧
    (InsertUndoRecordBytes u).drop
        (20 + (if needsRelationDetails u then 5 else 0) +
          (if needsBlock u then 14 else 0) +
          (if needsTransaction u then 12 else 0) +
          (if needsPayload u then 4 else 0)) =
      u.uur_payload ++ u.uur_tuple := by
  obtain ⟨h0, ht, hp, hr, hpx, hx, hc, hts, hfk, hbp, hbk, hof, hep, hnx,
    hpl, htl⟩ := h
  have key := InsertUndoRecordBytes_decomp u
  have lh := serializeHeader_length u (UndoRecordComputeInfo u)
  have l1 := relationDetails_slot_length u
  have l2 := block_slot_length u
  have l3 := transaction_slot_length u
  have l4 := payload_slot_length u
  have d20 : (InsertUndoRecordBytes u).drop 20 =
      (if needsRelationDetails u then serializeRelationDetails u else []) ++
      ((if needsBlock u then serializeBlock u else []) ++
        ((if needsTransaction u then serializeTransaction u else []) ++
          (if needsPayload u then
            serializePayloadSizes u ++ u.uur_payload ++ u.uur_tuple
          else []))) := by
    rw [key]
    exact List.drop_left' lh
  have d2 : (InsertUndoRecordBytes u).drop
      (20 + (if needsRelationDetails u then 5 else 0)) =
      (if needsBlock u then serializeBlock u else []) ++
      ((if needsTransaction u then serializeTransaction u else []) ++
        (if needsPayload u then
          serializePayloadSizes u ++ u.uur_payload ++ u.uur_tuple
        else [])) := by
    rw [key, ← List.append_assoc]
    exact List.drop_left' (by rw [List.length_append, lh, l1])
  have d3 : (InsertUndoRecordBytes u).drop
      (20 + (if needsRelationDetails u then 5 else 0) +
        (if needsBlock u then 14 else 0)) =
      (if needsTransaction u then serializeTransaction u else []) ++
      (if needsPayload u then
        serializePayloadSizes u ++ u.uur_payload ++ u.uur_tuple
      else []) := by
    rw [key, ← List.append_assoc, ← List.append_assoc]
    exact List.drop_left'
      (by rw [List.length_append, List.length_append, lh, l1, l2])
  have d4 : (InsertUndoRecordBytes u).drop
      (20 + (if needsRelationDetails u then 5 else 0) +
        (if needsBlock u then 14 else 0) +
        (if needsTransaction u then 12 else 0)) =
      (if needsPayload u then
        serializePayloadSizes u ++ u.uur_payload ++ u.uur_tuple
      else []) := by
    rw [key, ← List.append_assoc, ← List.append_assoc, ← List.append_assoc]
    exact List.drop_left'
      (by rw [List.length_append, List.length_append, List.length_append,
        lh, l1, l2, l3])
  refine ⟨?_, ?_, ?_, ?_, ?_, ?_⟩
  · rw [key, UndoRecordExpectedSize]
    simp only [List.length_append, lh, l1, l2, l3, l4]
    cases needsRelationDetails u <;> cases needsBlock u <;>
      cases needsTransaction u <;> cases needsPayload u <;> simp <;> omega
  · rw [d20, d2]
    exact parseRelationDetails_step u _ hts hfk
  · rw [d2, d3]
    exact parseBlock_step u _ hbp hbk hof
  · rw [d3, d4]
    exact parseTransaction_step u _ hep hnx
  · rw [d4, ← List.append_nil (if needsPayload u then
      serializePayloadSizes u ++ u.uur_payload ++ u.uur_tuple else [])]
    exact parsePayload_step u [] hpl htl
  · cases hpy : needsPayload u with
    | false =>
      have hempty := hpy
      simp only [needsPayload, Bool.or_eq_false_iff, bne_eq_false_iff_eq]
        at hempty
      have e1 : u.uur_payload = [] := List.length_eq_zero.mp hempty.1
      have e2 : u.uur_tuple = [] := List.length_eq_zero.mp hempty.2
      simp [d4, hpy, e1, e2]
    | true =>
      have hx4 : (if needsPayload u then
          serializePayloadSizes u ++ u.uur_payload ++ u.uur_tuple
        else []) = serializePayloadSizes u ++ (u.uur_payload ++ u.uur_tuple) := by
        rw [hpy, List.append_assoc]
        rfl
      rw [key, hx4, show (if (true = true) then 4 else 0) = 4 from rfl]
      rw [← List.append_assoc, ← List.append_assoc, ← List.append_assoc,
        ← List.append_assoc]
      exact List.drop_left'
        (by rw [List.length_append, List.length_append, List.length_append,
          List.length_append, lh, l1, l2, l3]
            simp [serializePayloadSizes, leBytes_length])

/-- Closed witness for the section-order theorem at a concrete record. -/
theorem undo_record_sections_in_order_witness :
    (InsertUndoRecordBytes uRoundTripExample).length =
      UndoRecordExpectedSize uRoundTripExample ∧
    parseRelationDetails (UndoRecordComputeInfo uRoundTripExample)
        ((InsertUndoRecordBytes uRoundTripExample).drop 20) =
      some ((uRoundTripExample.uur_tsid, uRoundTripExample.uur_fork),
        (InsertUndoRecordBytes uRoundTripExample).drop
          (20 + (if needsRelationDetails uRoundTripExample then 5 else 0))) ∧
    parseBlock (UndoRecordComputeInfo uRoundTripExample)
        ((InsertUndoRecordBytes uRoundTripExample).drop
          (20 + (if needsRelationDetails uRoundTripExample then 5 else 0))) =
      some ((uRoundTripExample.uur_blkprev, uRoundTripExample.uur_block,
          uRoundTripExample.uur_offset),
        (InsertUndoRecordBytes uRoundTripExample).drop
          (20 + (if needsRelationDetails uRoundTripExample then 5 else 0) +
            (if needsBlock uRoundTripExample then 14 else 0))) ∧
    parseTransaction (UndoRecordComputeInfo uRoundTripExample)
        ((InsertUndoRecordBytes uRoundTripExample).drop
          (20 + (if needsRelationDetails uRoundTripExample then 5 else 0) +
            (if needsBlock uRoundTripExample then 14 else 0))) =
      some ((uRoundTripExample.uur_xidepoch, uRoundTripExample.uur_next),
        (InsertUndoRecordBytes uRoundTripExample).drop
          (20 + (if needsRelationDetails uRoundTripExample then 5 else 0) +
            (if needsBlock uRoundTripExample then 14 else 0) +
            (if needsTransaction uRoundTripExample then 12 else 0))) ∧
    parsePayload (UndoRecordComputeInfo uRoundTripExample)
        ((InsertUndoRecordBytes uRoundTripExample).drop
          (20 + (if needsRelationDetails uRoundTripExample then 5 else 0) +
            (if needsBlock uRoundTripExample then 14 else 0) +
            (if needsTransaction uRoundTripExample then 12 else 0))) =
      some ((uRoundTripExample.uur_payload, uRoundTripExample.uur_tuple), []) ∧
    (InsertUndoRecordBytes uRoundTripExample).drop
        (20 + (if needsRelationDetails uRoundTripExample then 5 else 0) +
          (if needsBlock uRoundTripExample then 14 else 0) +
          (if needsTransaction uRoundTripExample then 12 else 0) +
          (if needsPayload uRoundTripExample then 4 else 0)) =
      uRoundTripExample.uur_payload ++ uRoundTripExample.uur_tuple :=
  undo_record_sections_in_order uRoundTripExample
    (by simp only [WellFormedUnpacked]; decide)

/-! ## Log manager

`UndoLogMetaData` is declared in undolog.h (lines 145-168); the bodies of the
space-management functions declared at lines 171-205 live in the missing
undolog.c, so their effects on the metadata are modelled from the spec's Log
Manager section.  A `uint16` field stores values reduced mod `2^16` and a
`uint64` field mod `2^64`, matching the declared C types. -/

/-- Control metadata for an active undo log (undolog.h lines 145-168).
`end` is a Lean keyword, hence the quoted field name. -/
structure UndoLogMetaData where
  tablespace : Nat
  insert : Nat
  «end» : Nat
  discard : Nat
  last_xact_start : Nat
  is_first_rec : Bool
  xid : Nat
  prevlen : Nat
deriving DecidableEq, Repr

/-- The shared-memory state: per-log-number control metadata, present for
logs that exist. -/
structure UndoLogState where
  logs : Nat → Option UndoLogMetaData

/-- The initial shared-memory state: no undo logs exist. -/
def initialUndoLogState : UndoLogState := ⟨fun _ => none⟩

/-- Round `n` up to the next segment boundary. -/
def roundUpToSegment (n : Nat) : Nat :=
  ((n + UndoLogSegmentSize - 1) / UndoLogSegmentSize) * UndoLogSegmentSize

/-- Modelled from the spec: creating a fresh undo log in a given slot
(step 1 of `UndoLogAllocate`, undolog.h line 171; body in the missing
undolog.c).  A fresh log starts with all offsets zero and no segments. -/
def UndoLogCreate (s : UndoLogState) (logno tablespace : Nat) : UndoLogState :=
  ⟨fun L =>
    if L = logno then
      some { tablespace := tablespace, insert := 0, «end» := 0, discard := 0,
             last_xact_start := 0, is_first_rec := false, xid := 0,
             prevlen := 0 }
    else s.logs L⟩

/-- Modelled from the spec: the segment-extension effect of `UndoLogAllocate`
(undolog.h line 171; body in the missing undolog.c): if `insert + size > end`,
whole zero-filled segments are added until `end ≥ insert + size`. -/
def UndoLogAllocate (s : UndoLogState) (logno size : Nat) : UndoLogState :=
  match s.logs logno with
  | none => s
  | some m =>
    ⟨fun L =>
      if L = logno then
        some { m with «end» := max m.«end» (roundUpToSegment (m.insert + size)) }
      else s.logs L⟩

/-- Modelled from the spec: `UndoLogAdvance` (undolog.h line 175; body in the
missing undolog.c) verifies that the insertion point matches `insert`, then
advances `insert` by `size`, stores `prevlen = size` (a `uint16` field, hence
the reduction mod `2^16`) and clears `is_first_rec`. -/
def UndoLogAdvance (s : UndoLogState) (insertion_point size : Nat) :
    UndoLogState :=
  match s.logs (UndoRecPtrGetLogNo insertion_point) with
  | none => s
  | some m =>
    if UndoRecPtrGetOffset insertion_point = m.insert then
      ⟨fun L =>
        if L = UndoRecPtrGetLogNo insertion_point then
          some { m with insert := (m.insert + size) % 2 ^ 64,
                        prevlen := size % 2 ^ 16,
                        is_first_rec := false }
        else s.logs L⟩
    else s

/-- Modelled from the spec: `UndoLogDiscard` (undolog.h line 176; body in the
missing undolog.c) advances the discard pointer of the log containing the
discard point to the point's offset; monotonicity is enforced, so a point
before the current discard pointer is a no-op. -/
def UndoLogDiscard (s : UndoLogState) (discard_point _xid : Nat) :
    UndoLogState :=
  match s.logs (UndoRecPtrGetLogNo discard_point) with
  | none => s
  | some m =>
    ⟨fun L =>
      if L = UndoRecPtrGetLogNo discard_point then
        some { m with
                discard := max m.discard (UndoRecPtrGetOffset discard_point) }
      else s.logs L⟩

/-- Modelled from the spec: `UndoLogIsDiscarded` (undolog.h line 177; body in
the missing undolog.c): true iff the pointer's offset is strictly below the
discard pointer of its log.  A log that no longer exists has been fully
discarded, so pointers into it count as discarded. -/
def UndoLogIsDiscarded (s : UndoLogState) (point : Nat) : Bool :=
  match s.logs (UndoRecPtrGetLogNo point) with
  | none => true
  | some m => UndoRecPtrGetOffset point < m.discard

/-- Modelled from the spec: `UndoLogRewind` (undolog.h line 201; body in the
missing undolog.c) truncates `insert` back to the given point and restores
`prevlen` (a `uint16` field, hence the reduction mod `2^16`). -/
def UndoLogRewind (s : UndoLogState) (insert_urp prevlen : Nat) :
    UndoLogState :=
  match s.logs (UndoRecPtrGetLogNo insert_urp) with
  | none => s
  | some m =>
    ⟨fun L =>
      if L = UndoRecPtrGetLogNo insert_urp then
        some { m with insert := UndoRecPtrGetOffset insert_urp,
                      prevlen := prevlen % 2 ^ 16 }
      else s.logs L⟩

/-- A concrete log metadata value used in concrete instantiations: a fresh
one-segment log with one pending transaction. -/
def exampleMeta : UndoLogMetaData :=
  { tablespace := 1663, insert := 0, «end» := UndoLogSegmentSize, discard := 0,
    last_xact_start := 0, is_first_rec := true, xid := 7, prevlen := 0 }

/-- A concrete shared-memory state with a single log, number 0. -/
def exampleState : UndoLogState :=
  ⟨fun L => if L = 0 then some exampleMeta else none⟩

/-- C5 as stated is false: `prevlen` is a `uint16` field
(undolog.h line 167), so `UndoLogAdvance` with `size = 65536` satisfies the
claim's precondition yet stores `prevlen = 0 ≠ 65536`. -/
theorem undo_log_advance_claim_counterexample :
    exampleState.logs (UndoRecPtrGetLogNo 0) = some exampleMeta ∧
    UndoRecPtrGetOffset 0 = exampleMeta.insert ∧
    ((UndoLogAdvance exampleState 0 65536).logs
        (UndoRecPtrGetLogNo 0)).map (fun m => m.insert) =
      some (UndoRecPtrGetOffset 0 + 65536) ∧
    ¬ ((UndoLogAdvance exampleState 0 65536).logs
        (UndoRecPtrGetLogNo 0)).map (fun m => m.prevlen) = some 65536 := by
  decide

/-- C5 (amended): for sizes below `2^16` — the range representable in the
`uint16` `prevlen` field — `UndoLogAdvance` on a pointer matching the
insertion point advances `insert` by exactly `size`, stores `prevlen = size`
and clears `is_first_rec`. -/
theorem undo_log_advance_spec (s : UndoLogState) (p n : Nat)
    (m : UndoLogMetaData) (hm : s.logs (UndoRecPtrGetLogNo p) = some m)
    (hoff : UndoRecPtrGetOffset p = m.insert) (hn : n < 2 ^ 16) :
    (UndoLogAdvance s p n).logs (UndoRecPtrGetLogNo p) =
      some { m with insert := UndoRecPtrGetOffset p + n,
                    prevlen := n, is_first_rec := false } := by
  have hofflt := UndoRecPtrGetOffset_lt p
  have h1 : (m.insert + n) % 2 ^ 64 = UndoRecPtrGetOffset p + n := by
    rw [← hoff]
    apply Nat.mod_eq_of_lt
    omega
  have h2 : n % 2 ^ 16 = n := Nat.mod_eq_of_lt hn
  simp [UndoLogAdvance, hm, hoff, h1, h2]
  omega

/-- Closed witness for the amended advance theorem at a concrete input. -/
theorem undo_log_advance_spec_witness :
    (UndoLogAdvance exampleState 0 100).logs (UndoRecPtrGetLogNo 0) =
      some { exampleMeta with insert := UndoRecPtrGetOffset 0 + 100,
                              prevlen := 100, is_first_rec := false } :=
  undo_log_advance_spec exampleState 0 100 exampleMeta (by decide) (by decide)
    (by decide)

/-- C6: `UndoLogIsDiscarded` is true exactly when the pointer's offset is
strictly below the discard pointer of its (existing) log, and after
`UndoLogDiscard` at a point `q` it is true for every pointer in the same log
with a smaller offset. -/
theorem undo_log_is_discarded_correct (s : UndoLogState) (p q x : Nat)
    (m : UndoLogMetaData) (hm : s.logs (UndoRecPtrGetLogNo p) = some m) :
    (UndoLogIsDiscarded s p = true ↔ UndoRecPtrGetOffset p < m.discard) ∧
    (UndoRecPtrGetLogNo p = UndoRecPtrGetLogNo q →
      UndoRecPtrGetOffset p < UndoRecPtrGetOffset q →
      UndoLogIsDiscarded (UndoLogDiscard s q x) p = true) := by
  constructor
  · simp [UndoLogIsDiscarded, hm]
  · intro heq hlt
    unfold UndoLogDiscard
    rw [← heq, hm]
    simp [UndoLogIsDiscarded, heq]
    omega

/-- Closed witness for the discard theorem at a concrete input. -/
theorem undo_log_is_discarded_correct_witness :
    (UndoLogIsDiscarded exampleState 0 = true ↔
      UndoRecPtrGetOffset 0 < exampleMeta.discard) ∧
    (UndoRecPtrGetLogNo 0 = UndoRecPtrGetLogNo (MakeUndoRecPtr 0 50) →
      UndoRecPtrGetOffset 0 < UndoRecPtrGetOffset (MakeUndoRecPtr 0 50) →
      UndoLogIsDiscarded
        (UndoLogDiscard exampleState (MakeUndoRecPtr 0 50) 7) 0 = true) :=
  undo_log_is_discarded_correct exampleState 0 (MakeUndoRecPtr 0 50) 7
    exampleMeta (by decide)

/-- Rounding up to a segment boundary never shrinks. -/
theorem le_roundUpToSegment (n : Nat) : n ≤ roundUpToSegment n := by
  have hseg : UndoLogSegmentSize = 4194304 := rfl
  rw [roundUpToSegment, hseg]
  omega

/-- The rounded value is a whole number of segments. -/
theorem roundUpToSegment_mod (n : Nat) :
    roundUpToSegment n % UndoLogSegmentSize = 0 := by
  have hseg : UndoLogSegmentSize = 4194304 := rfl
  rw [roundUpToSegment, hseg]
  omega

/-- Rounding up stays within the log size limit, because the limit is itself
a whole number of segments. -/
theorem roundUpToSegment_le_max (n : Nat) (h : n ≤ UndoLogMaxSize) :
    roundUpToSegment n ≤ UndoLogMaxSize := by
  have hseg : UndoLogSegmentSize = 4194304 := rfl
  have hmax : UndoLogMaxSize = 1099511627776 := rfl
  rw [roundUpToSegment, hseg]
  rw [hmax] at h ⊢
  omega

/-- Modelled from the spec: one shared-state transition of the Log Manager
(bodies in the missing undolog.c).  The preconditions are the spec's validity
conditions for each operation: creation targets a free slot; allocation fits
under `UndoLogMaxSize` (an over-full log is never extended — a fresh log is
used instead); advance follows an allocation of the same size, so the
reserved range lies inside the allocated segments; discard never passes the
insertion point; rewind moves the insertion point back to a still-live offset
of the current transaction. -/
inductive UndoLogStep : UndoLogState → UndoLogState → Prop where
  | create (s : UndoLogState) (logno tablespace : Nat)
      (hnew : s.logs logno = none) :
      UndoLogStep s (UndoLogCreate s logno tablespace)
  | allocate (s : UndoLogState) (logno size : Nat) (m : UndoLogMetaData)
      (hm : s.logs logno = some m) (hpos : 0 < size)
      (hfit : m.insert + size ≤ UndoLogMaxSize) :
      UndoLogStep s (UndoLogAllocate s logno size)
  | advance (s : UndoLogState) (p size : Nat) (m : UndoLogMetaData)
      (hm : s.logs (UndoRecPtrGetLogNo p) = some m)
      (hoff : UndoRecPtrGetOffset p = m.insert)
      (hroom : m.insert + size ≤ m.«end») :
      UndoLogStep s (UndoLogAdvance s p size)
  | discard (s : UndoLogState) (p x : Nat) (m : UndoLogMetaData)
      (hm : s.logs (UndoRecPtrGetLogNo p) = some m)
      (hle : UndoRecPtrGetOffset p ≤ m.insert) :
      UndoLogStep s (UndoLogDiscard s p x)
  | rewind (s : UndoLogState) (p plen : Nat) (m : UndoLogMetaData)
      (hm : s.logs (UndoRecPtrGetLogNo p) = some m)
      (hlo : m.discard ≤ UndoRecPtrGetOffset p)
      (hhi : UndoRecPtrGetOffset p ≤ m.insert) :
      UndoLogStep s (UndoLogRewind s p plen)

/-- States reachable from the initial empty shared memory by valid
operations. -/
inductive UndoLogReachable : UndoLogState → Prop where
  | init : UndoLogReachable initialUndoLogState
  | step {s s' : UndoLogState} :
      UndoLogReachable s → UndoLogStep s s' → UndoLogReachable s'

/-- The per-log offset invariant of the spec:
`0 ≤ discard ≤ insert ≤ end ≤ UndoLogMaxSize` and `end` a whole number of
segments (the lower bound `0 ≤ discard` is inherent to `Nat`). -/
def UndoLogInvariant (s : UndoLogState) : Prop :=
  ∀ L m, s.logs L = some m →
    m.discard ≤ m.insert ∧ m.insert ≤ m.«end» ∧
    m.«end» ≤ UndoLogMaxSize ∧ m.«end» % UndoLogSegmentSize = 0

/-- C7: every state reachable by any sequence of valid operations satisfies
the offset invariant in every existing log. -/
theorem undo_log_invariant_reachable (s : UndoLogState)
    (hs : UndoLogReachable s) : UndoLogInvariant s := by
  induction hs with
  | init =>
    intro L m hm
    simp [initialUndoLogState] at hm
  | step hr hstep ih =>
    cases hstep with
    | create logno ts hnew =>
      intro L m hm
      by_cases hL : L = logno
      · subst hL
        simp only [UndoLogCreate, eq_self_iff_true, if_true, Option.some.injEq] at hm
        subst hm
        exact ⟨Nat.le_refl _, Nat.le_refl _, Nat.zero_le _, Nat.zero_mod _⟩
      · simp only [UndoLogCreate, if_neg hL] at hm
        exact ih L m hm
    | allocate logno size m0 hm0 hpos hfit =>
      intro L m hm
      obtain ⟨hdi, hie, hem, hes⟩ := ih logno m0 hm0
      simp only [UndoLogAllocate, hm0] at hm
      by_cases hL : L = logno
      · subst hL
        simp only [eq_self_iff_true, if_true, Option.some.injEq] at hm
        subst hm
        have hr1 := le_roundUpToSegment (m0.insert + size)
        have hr2 := roundUpToSegment_mod (m0.insert + size)
        have hr3 := roundUpToSegment_le_max (m0.insert + size) hfit
        have hmod : max m0.«end» (roundUpToSegment (m0.insert + size)) %
            UndoLogSegmentSize = 0 := by
          rcases Nat.le_total m0.«end» (roundUpToSegment (m0.insert + size))
            with hcase | hcase
          · rw [Nat.max_eq_right hcase]
            exact hr2
          · rw [Nat.max_eq_left hcase]
            exact hes
        refine ⟨hdi, ?_, ?_, hmod⟩
        · simp only
          omega
        · simp only
          omega
      · simp only [if_neg hL] at hm
        exact ih L m hm
    | advance p size m0 hm0 hoff hroom =>
      intro L m hm
      obtain ⟨hdi, hie, hem, hes⟩ := ih (UndoRecPtrGetLogNo p) m0 hm0
      simp only [UndoLogAdvance, hm0, if_pos hoff] at hm
      by_cases hL : L = UndoRecPtrGetLogNo p
      · subst hL
        simp only [eq_self_iff_true, if_true, Option.some.injEq] at hm
        subst hm
        have hmax : UndoLogMaxSize = 1099511627776 := rfl
        have hmod : (m0.insert + size) % 2 ^ 64 = m0.insert + size := by
          apply Nat.mod_eq_of_lt
          omega
        refine ⟨?_, ?_, hem, hes⟩ <;> simp only [hmod] <;> omega
      · simp only [if_neg hL] at hm
        exact ih L m hm
    | discard p x m0 hm0 hle =>
      intro L m hm
      obtain ⟨hdi, hie, hem, hes⟩ := ih (UndoRecPtrGetLogNo p) m0 hm0
      simp only [UndoLogDiscard, hm0] at hm
      by_cases hL : L = UndoRecPtrGetLogNo p
      · subst hL
        simp only [eq_self_iff_true, if_true, Option.some.injEq] at hm
        subst hm
        refine ⟨?_, hie, hem, hes⟩
        simp only
        omega
      · simp only [if_neg hL] at hm
        exact ih L m hm
    | rewind p plen m0 hm0 hlo hhi =>
      intro L m hm
      obtain ⟨hdi, hie, hem, hes⟩ := ih (UndoRecPtrGetLogNo p) m0 hm0
      simp only [UndoLogRewind, hm0] at hm
      by_cases hL : L = UndoRecPtrGetLogNo p
      · subst hL
        simp only [eq_self_iff_true, if_true, Option.some.injEq] at hm
        subst hm
        refine ⟨hlo, ?_, hem, hes⟩
        simp only
        omega
      · simp only [if_neg hL] at hm
        exact ih L m hm

/-- Closed witness: the invariant holds in the state reached by creating log
0, allocating 100 bytes and advancing over them. -/
theorem undo_log_invariant_reachable_witness :
    UndoLogInvariant
      (UndoLogAdvance
        (UndoLogAllocate (UndoLogCreate initialUndoLogState 0 1663) 0 100)
        (MakeUndoRecPtr 0 0) 100) := by
  apply undo_log_invariant_reachable
  apply UndoLogReachable.step
  · apply UndoLogReachable.step
    · apply UndoLogReachable.step UndoLogReachable.init
      exact UndoLogStep.create _ 0 1663 rfl
    · exact UndoLogStep.allocate _ 0 100 _ rfl (by decide) (by decide)
  · exact UndoLogStep.advance _ (MakeUndoRecPtr 0 0) 100 _ rfl (by decide)
      (by decide)

/-- C2: `SizeOfUndoRecordTransaction` evaluates to 16, not 12: `offsetof`
places the 8-byte-aligned `uint64 urec_next` at offset 8, after 4 bytes of
interior padding behind `uint32 urec_xidepoch` — contradicting the header's
own statement that all structures are packed without padding bytes
(undorecord.h lines 34-40) and the spec's packed count 4 + 8 = 12, which the
(spec-modelled) on-disk Transaction section does occupy. -/
theorem sizeof_undo_record_transaction_value :
    SizeOfUndoRecordTransaction = 16 ∧
    SizeOfUndoRecordTransaction ≠ 12 ∧
    (∀ u : UnpackedUndoRecord, (serializeTransaction u).length = 12) := by
  refine ⟨by decide, by decide, ?_⟩
  intro u
  simp [serializeTransaction, leBytes_length]

/-- C10: every previous-record length is stored in 16 bits.  The `uint16`
metadata field `prevlen` written by `UndoLogAdvance` is the size reduced mod
`2^16`, hence at most 65535 and unequal to any larger record size; the record
header stores `urec_prevlen` in exactly 2 bytes, which reassemble to the
value mod `2^16`; and 65535 is far below the spec's
`MAX_RECORD_SIZE < UndoLogMaxSize - UndoLogSegmentSize` bound. -/
theorem undo_record_prevlen_16_bit :
    (∀ (s : UndoLogState) (p n : Nat) (m : UndoLogMetaData),
      s.logs (UndoRecPtrGetLogNo p) = some m →
      UndoRecPtrGetOffset p = m.insert →
      ∃ m', (UndoLogAdvance s p n).logs (UndoRecPtrGetLogNo p) = some m' ∧
        m'.prevlen = n % 2 ^ 16 ∧ m'.prevlen ≤ 65535 ∧
        (65536 ≤ n → m'.prevlen ≠ n)) ∧
    (∀ (u : UnpackedUndoRecord) (info : Nat),
      ((serializeHeader u info).take 4).drop 2 = leBytes 2 u.uur_prevlen ∧
      leVal (leBytes 2 u.uur_prevlen) = u.uur_prevlen % 2 ^ 16 ∧
      u.uur_prevlen % 2 ^ 16 ≤ 65535) ∧
    65535 < UndoLogMaxSize - UndoLogSegmentSize := by
  refine ⟨?_, ?_, by decide⟩
  · intro s p n m hm hoff
    have hlogs : (UndoLogAdvance s p n).logs (UndoRecPtrGetLogNo p) =
        some { m with insert := (m.insert + n) % 2 ^ 64,
                      prevlen := n % 2 ^ 16, is_first_rec := false } := by
      simp [UndoLogAdvance, hm, hoff]
    refine ⟨_, hlogs, rfl, ?_, ?_⟩
    · show n % 2 ^ 16 ≤ 65535
      have := Nat.mod_lt n (y := 2 ^ 16) (by norm_num)
      omega
    · intro hn
      show n % 2 ^ 16 ≠ n
      have := Nat.mod_lt n (y := 2 ^ 16) (by norm_num)
      omega
  · intro u info
    refine ⟨?_, leVal_leBytes_mod 2 u.uur_prevlen, ?_⟩
    · simp [serializeHeader, leBytes]
    · have := Nat.mod_lt u.uur_prevlen (y := 2 ^ 16) (by norm_num)
      omega

/-- Closed witness for the 16-bit prevlen theorem at concrete inputs. -/
theorem undo_record_prevlen_16_bit_witness :
    ∃ m', (UndoLogAdvance exampleState 0 70000).logs
        (UndoRecPtrGetLogNo 0) = some m' ∧
      m'.prevlen = 70000 % 2 ^ 16 ∧ m'.prevlen ≤ 65535 ∧
      (65536 ≤ 70000 → m'.prevlen ≠ 70000) :=
  undo_record_prevlen_16_bit.1 exampleState 0 70000 exampleMeta (by decide)
    (by decide)

/-! ## Checkpoint filenames

`UndoCheckPointFilenamePrecedes` is the macro at undolog.h line 126:
`strcmp(file1, file2) < 0`.  Filenames are byte lists (C strings without the
terminating NUL; hex names contain no interior NUL, so `strcmp` on the lists
is faithful).  The filename format — 16 fixed hex characters encoding the
redo LSN — is produced by the missing undolog.c, so it is modelled from the
spec. -/

/-- C `strcmp` on NUL-free byte strings: sign of the first character
difference, with a proper prefix comparing as smaller. -/
def strcmp : List Nat → List Nat → Int
  | [], [] => 0
  | [], _ :: _ => -1
  | _ :: _, [] => 1
  | a :: as, b :: bs =>
      if a < b then -1 else if b < a then 1 else strcmp as bs

/-- Compare two undo checkpoint filenames (undolog.h line 126). -/
def UndoCheckPointFilenamePrecedes (file1 file2 : List Nat) : Bool :=
  decide (strcmp file1 file2 < 0)

/-- ASCII code of an uppercase hexadecimal digit (the `%016X` conversion). -/
def hexChar (d : Nat) : Nat := if d < 10 then 48 + d else 55 + d

/-- Fixed-width big-endian hexadecimal rendering, most significant digit
first. -/
def toHexFixed : Nat → Nat → List Nat
  | 0, _ => []
  | w + 1, v => toHexFixed w (v / 16) ++ [hexChar (v % 16)]

/-- Modelled from the spec: the undo checkpoint filename — the redo LSN
rendered as 16 fixed hex characters (the snprintf in the missing
undolog.c's CheckPointUndoLogs). -/
def undoCheckPointFileName (lsn : Nat) : List Nat :=
  toHexFixed UNDO_CHECKPOINT_FILENAME_LENGTH lsn

/-- A fixed-width rendering has exactly the requested width. -/
theorem toHexFixed_length : ∀ w v : Nat, (toHexFixed w v).length = w
  | 0, _ => rfl
  | w + 1, v => by simp [toHexFixed, toHexFixed_length w]

/-- `strcmp` on equal-length prefixes: the suffixes only matter when the
prefixes compare equal. -/
theorem strcmp_append :
    ∀ (as bs cs ds : List Nat), as.length = bs.length →
      strcmp (as ++ cs) (bs ++ ds) =
        if strcmp as bs = 0 then strcmp cs ds else strcmp as bs
  | [], [], cs, ds, _ => by simp [strcmp]
  | [], _ :: _, _, _, h => by simp at h
  | _ :: _, [], _, _, h => by simp at h
  | a :: as, b :: bs, cs, ds, h => by
    simp only [List.cons_append, strcmp]
    by_cases h1 : a < b
    · simp [h1]
    · by_cases h2 : b < a
      · simp [h1, h2]
      · simp only [if_neg h1, if_neg h2]
        exact strcmp_append as bs cs ds (by simpa using h)

/-- The uppercase hex digit encoding is strictly monotone and injective on
digits. -/
theorem hexChar_lt_iff (d e : Nat) (hd : d < 16) (he : e < 16) :
    (hexChar d < hexChar e ↔ d < e) ∧ (hexChar d = hexChar e ↔ d = e) := by
  unfold hexChar
  split <;> split <;> omega

/-- Comparing fixed-width hex renderings with `strcmp` is exactly comparing
the encoded values. -/
theorem strcmp_toHexFixed :
    ∀ (w a b : Nat), a < 16 ^ w → b < 16 ^ w →
      (strcmp (toHexFixed w a) (toHexFixed w b) = 0 ↔ a = b) ∧
      (strcmp (toHexFixed w a) (toHexFixed w b) < 0 ↔ a < b)
  | 0, a, b, ha, hb => by
    simp only [pow_zero] at ha hb
    have ha0 : a = 0 := by omega
    have hb0 : b = 0 := by omega
    subst ha0
    subst hb0
    simp [toHexFixed, strcmp]
  | w + 1, a, b, ha, hb => by
    have h16 : (0 : Nat) < 16 := by norm_num
    have ha' : a / 16 < 16 ^ w := by
      rw [Nat.div_lt_iff_lt_mul h16]
      rw [pow_succ] at ha
      exact ha
    have hb' : b / 16 < 16 ^ w := by
      rw [Nat.div_lt_iff_lt_mul h16]
      rw [pow_succ] at hb
      exact hb
    have ih := strcmp_toHexFixed w (a / 16) (b / 16) ha' hb'
    have hd := hexChar_lt_iff (a % 16) (b % 16)
      (Nat.mod_lt _ h16) (Nat.mod_lt _ h16)
    simp only [toHexFixed]
    rw [strcmp_append _ _ _ _ (by rw [toHexFixed_length, toHexFixed_length])]
    by_cases hz : strcmp (toHexFixed w (a / 16)) (toHexFixed w (b / 16)) = 0
    · rw [if_pos hz]
      have heq : a / 16 = b / 16 := ih.1.mp hz
      simp only [strcmp]
      by_cases hlt : hexChar (a % 16) < hexChar (b % 16)
      · have hmod : a % 16 < b % 16 := hd.1.mp hlt
        rw [if_pos hlt]
        norm_num
        omega
      · by_cases hgt : hexChar (b % 16) < hexChar (a % 16)
        · have hmod : b % 16 < a % 16 := (hexChar_lt_iff (b % 16) (a % 16)
            (Nat.mod_lt _ h16) (Nat.mod_lt _ h16)).1.mp hgt
          rw [if_neg hlt, if_pos hgt]
          norm_num
          omega
        · have hmod : a % 16 = b % 16 := hd.2.mp (by omega)
          rw [if_neg hlt, if_neg hgt]
          norm_num
          omega
    · rw [if_neg hz]
      have hne : a / 16 ≠ b / 16 := fun h => hz (ih.1.mpr h)
      constructor
      · constructor
        · intro h'
          exact absurd h' hz
        · intro h'
          exact absurd (ih.1.mpr (by rw [h'])) hz
      · rw [ih.2]
        omega

/-- C8: for 16-hex-character checkpoint filenames, the `strcmp` order used by
`UndoCheckPointFilenamePrecedes` coincides with the numeric order of the redo
LSNs they encode, and equal names encode equal LSNs — so the
lexicographically greatest valid filename is the newest checkpoint. -/
theorem undo_checkpoint_filename_order (a b : Nat)
    (ha : a < 2 ^ 64) (hb : b < 2 ^ 64) :
    (UndoCheckPointFilenamePrecedes (undoCheckPointFileName a)
        (undoCheckPointFileName b) = true ↔ a < b) ∧
    (undoCheckPointFileName a = undoCheckPointFileName b ↔ a = b) := by
  have h16 : (16 : Nat) ^ 16 = 2 ^ 64 := by norm_num
  have ha' : a < 16 ^ 16 := by rw [h16]; exact ha
  have hb' : b < 16 ^ 16 := by rw [h16]; exact hb
  have key := strcmp_toHexFixed 16 a b ha' hb'
  constructor
  · rw [UndoCheckPointFilenamePrecedes, decide_eq_true_iff]
    exact key.2
  · constructor
    · intro h'
      apply key.1.mp
      rw [undoCheckPointFileName, UNDO_CHECKPOINT_FILENAME_LENGTH] at h'
      rw [h']
      exact (strcmp_toHexFixed 16 b b hb' hb').1.mpr rfl
    · intro h'
      rw [h']

/-- Closed witness for the filename-order theorem at concrete LSNs
(`0xA000` is the checkpoint LSN of the spec's scenario 5). -/
theorem undo_checkpoint_filename_order_witness :
    (UndoCheckPointFilenamePrecedes (undoCheckPointFileName 10)
        (undoCheckPointFileName 40960) = true ↔ 10 < 40960) ∧
    (undoCheckPointFileName 10 = undoCheckPointFileName 40960 ↔
      10 = 40960) :=
  undo_checkpoint_filename_order 10 40960 (by norm_num) (by norm_num)
